import Mathlib

/-!
Verification of the Alma Telegram Bridge plugin (src/main.ts) against its
specification.  The TypeScript source is shallowly embedded: the mutable
closure variables of `activate` become an explicit `BridgeState`, the
Telegram/host side effects become an explicit `Effect` trace, and the
results of fallible external calls (Telegram edit, host thread/message
fetches) are supplied by an `Env` oracle.  JS-specific semantics
(`Array.prototype.slice`, `String.prototype.split`, `parseInt`,
truthiness of strings) are modelled by dedicated `js*` functions.
-/

set_option maxHeartbeats 1000000
set_option maxRecDepth 8000

namespace AlmaBridge

/-! ## JS helper semantics -/

/-- JS `Array.prototype.slice` index normalisation: negative indices count
from the end, then the index is clamped to `[0, len]`. -/
def jsSliceIndex (len : Nat) (i : Int) : Nat :=
  if i < 0 then ((len : Int) + i).toNat else min i.toNat len

/-- JS `Array.prototype.slice(start, end)`. -/
def jsSlice {α : Type} (l : List α) (s e : Int) : List α :=
  (l.take (jsSliceIndex l.length e)).drop (jsSliceIndex l.length s)

/-- JS `String.prototype.split(sep)` for a single-character separator
(keeps empty fragments, `"".split(c) = [""]`). -/
def splitOnCharAux (sep : Char) : List Char → List Char → List (List Char)
  | [], acc => [acc.reverse]
  | c :: rest, acc =>
    if c = sep then acc.reverse :: splitOnCharAux sep rest []
    else splitOnCharAux sep rest (c :: acc)

def jsSplit (s : String) (sep : Char) : List String :=
  (splitOnCharAux sep s.data []).map (fun l => ⟨l⟩)

def isJsHexDigit (c : Char) : Bool :=
  c.isDigit || ('a' ≤ c && c ≤ 'f') || ('A' ≤ c && c ≤ 'F')

def jsDigitVal (c : Char) : Nat := c.toNat - '0'.toNat

def jsHexVal (c : Char) : Nat :=
  if c.isDigit then c.toNat - '0'.toNat
  else if 'a' ≤ c && c ≤ 'f' then c.toNat - 'a'.toNat + 10
  else c.toNat - 'A'.toNat + 10

def natOfDigits (base : Nat) (valOf : Char → Nat) (l : List Char) : Nat :=
  l.foldl (fun a c => a * base + valOf c) 0

/-- JS `parseInt(s)` (radix unspecified): skips leading whitespace, takes an
optional sign, recognises a `0x`/`0X` hex prefix, reads the longest digit
prefix; `none` models `NaN`. -/
def jsParseIntStr (s : String) : Option Int :=
  let cs := s.data.dropWhile (fun c => c.isWhitespace)
  let sign : Int := match cs with
    | '-' :: _ => -1
    | _ => 1
  let cs2 := match cs with
    | '-' :: r => r
    | '+' :: r => r
    | r => r
  match cs2 with
  | '0' :: x :: r =>
    if x = 'x' ∨ x = 'X' then
      let ds := r.takeWhile isJsHexDigit
      if ds = [] then none else some (sign * (natOfDigits 16 jsHexVal ds : Nat))
    else
      let ds := cs2.takeWhile Char.isDigit
      if ds = [] then none else some (sign * (natOfDigits 10 jsDigitVal ds : Nat))
  | _ =>
    let ds := cs2.takeWhile Char.isDigit
    if ds = [] then none else some (sign * (natOfDigits 10 jsDigitVal ds : Nat))

/-- `parseInt(param)` where `param : string | undefined`
(`parseInt(undefined)` is `NaN`). -/
def jsParseInt : Option String → Option Int
  | none => none
  | some s => jsParseIntStr s

/-- JS truthiness filter for `string | null`: `null` and `""` are falsy. -/
def jsTruthyStr : Option String → Option String
  | none => none
  | some s => if s = "" then none else some s

/-- Index-carrying map, mirroring JS `arr.map((x, i) => ...)`. -/
def jsMapIdxAux {α β : Type} (f : Nat → α → β) : Nat → List α → List β
  | _, [] => []
  | i, a :: l => f i a :: jsMapIdxAux f (i + 1) l

def jsMapIdx {α β : Type} (f : Nat → α → β) (l : List α) : List β :=
  jsMapIdxAux f 0 l

/-! ## Data model (interfaces from src/main.ts) -/

structure ThreadInfo where
  id : String
  title : String
deriving DecidableEq, Repr, Inhabited

/-- One element of a structured content object's `parts` array: either a raw
string part or an object part with optional `type` / `text` string fields
(`type = none` models a part whose `type` is not a string). -/
inductive ContentPart where
  | str (s : String)
  | typed (type : Option String) (text : Option String)
deriving DecidableEq, Repr

/-- The `unknown` message content handled by `extractMessageText`, split by
the shape checks the source performs, in the source's priority order:
a plain string, a non-object value, an object with a `parts` array, an
object with a string `text` field, anything else (carried as its JSON
serialisation). -/
inductive MessageContent where
  | str (s : String)
  | nonObject
  | parts (l : List ContentPart)
  | textField (s : String)
  | other (serialized : String)
deriving DecidableEq, Repr

structure Msg where
  id : String
  role : String
  content : MessageContent
  createdAt : String
deriving DecidableEq, Repr

instance : Inhabited Msg := ⟨⟨"", "", .str "", ""⟩⟩

structure InlineKeyboardButton where
  text : String
  callback_data : Option String
deriving DecidableEq, Repr

structure InlineKeyboardMarkup where
  inline_keyboard : List (List InlineKeyboardButton)
deriving DecidableEq, Repr

structure Config where
  telegramBotToken : String
  telegramChatId : String
  almaThreadId : String
  pollingInterval : Int
deriving DecidableEq, Repr

/-- The mutable closure state of `activate`. -/
structure BridgeState where
  isPolling : Bool
  lastUpdateId : Int
  selectedThreadId : Option String
  cachedThreads : List ThreadInfo
  cachedMessages : List Msg
  messagePageIndex : Int
deriving DecidableEq, Repr

/-- Observable side effects of the handlers (logger calls are not traced). -/
inductive Effect where
  | editMsg (messageId : Int) (text : String) (keyboard : Option InlineKeyboardMarkup)
      (useHtml : Bool)
  | sendMsg (text : String) (keyboard : Option InlineKeyboardMarkup) (useHtml : Bool)
  | answerCb (callbackId : String) (note : Option String)
  | storageSet (key : String) (value : String)
  | clipboardWrite (text : String)
  | notify (text : String) (kind : String)
  | apiCall (method : String)
  | pollLoopEntered
deriving DecidableEq, Repr

structure CallbackQuery where
  id : String
  data : Option String
  message_id : Option Int
deriving DecidableEq, Repr

structure InboundMessage where
  message_id : Int
  chatId : Int
  date : Int
  text : Option String
deriving DecidableEq, Repr

structure TgUpdate where
  update_id : Int
deriving DecidableEq, Repr, Inhabited

/-- Oracle for the results of external calls made during one action. -/
structure Env where
  editOk : Bool
  listThreadsResult : Except String (List ThreadInfo)
  getMessagesResult : Except String (List Msg)
  activeThread : Option ThreadInfo
  storedThreadId : Option String
  nowMod : Int
  nowMs : Int
  localeString : String → String

/-! ## Session loop (pollLoop, lines 623-637) -/

/-- The per-batch body of `pollLoop`: for each update, first
`lastUpdateId = Math.max(lastUpdateId, update.update_id)`, then the update
is dispatched.  Returns the final cursor and the dispatch trace, each entry
pairing the cursor value in effect at that dispatch with the update. -/
def pollCycle (cursor : Int) (updates : List TgUpdate) : Int × List (Int × TgUpdate) :=
  match updates with
  | [] => (cursor, [])
  | u :: rest =>
    let c2 := max cursor u.update_id
    let r := pollCycle c2 rest
    (r.1, (c2, u) :: r.2)

/-- The cursor value the loop holds just after acknowledging update `i`:
the running maximum of the initial cursor and the first `i + 1` update ids. -/
def cursorAt (cursor : Int) (updates : List TgUpdate) (i : Nat) : Int :=
  ((updates.take (i + 1)).map (·.update_id)).foldl max cursor

def expectedTrace (cursor : Int) (updates : List TgUpdate) : List (Int × TgUpdate) :=
  (List.range updates.length).map (fun i => (cursorAt cursor updates i, updates.getD i default))

lemma expectedTrace_cons (c : Int) (u : TgUpdate) (us : List TgUpdate) :
    expectedTrace c (u :: us) =
      (max c u.update_id, u) :: expectedTrace (max c u.update_id) us := by
  unfold expectedTrace
  rw [List.length_cons, List.range_succ_eq_map]
  simp only [List.map_cons, List.map_map]
  congr 1

lemma pollCycle_eq (c : Int) (us : List TgUpdate) :
    pollCycle c us = ((us.map (·.update_id)).foldl max c, expectedTrace c us) := by
  induction us generalizing c with
  | nil => simp [pollCycle, expectedTrace]
  | cons u us ih =>
    simp only [pollCycle, ih, List.map_cons, List.foldl_cons, expectedTrace_cons]

lemma pollCycle_chain (c : Int) (us : List TgUpdate) :
    List.Chain' (· ≤ ·) (c :: (pollCycle c us).2.map Prod.fst) := by
  induction us generalizing c with
  | nil => simp [pollCycle]
  | cons u us ih =>
    simp only [pollCycle, List.map_cons]
    exact List.chain'_cons.mpr ⟨le_max_left _ _, ih (max c u.update_id)⟩

lemma le_pollCycle (c : Int) (us : List TgUpdate) :
    c ≤ (pollCycle c us).1 := by
  induction us generalizing c with
  | nil => simp [pollCycle]
  | cons u us ih =>
    simpa [pollCycle] using le_trans (le_max_left c u.update_id) (ih (max c u.update_id))

/-- C1: within one poll cycle the cursor is advanced to
`max(lastUpdateId, update.update_id)` before each dispatch (the dispatch
trace records exactly the running maxima), the cursor sequence never
decreases, and for updates with ids `[5, 3, 7]` starting from cursor 0 the
final cursor is 7. -/
theorem c1_cursor_advances_before_dispatch :
    (∀ (c : Int) (us : List TgUpdate),
        pollCycle c us = ((us.map (·.update_id)).foldl max c, expectedTrace c us)
        ∧ List.Chain' (· ≤ ·) (c :: (pollCycle c us).2.map Prod.fst)
        ∧ c ≤ (pollCycle c us).1)
    ∧ (pollCycle 0 [⟨5⟩, ⟨3⟩, ⟨7⟩]).1 = 7 := by
  refine ⟨fun c us => ⟨pollCycle_eq c us, pollCycle_chain c us, le_pollCycle c us⟩, ?_⟩
  decide

/-! ## Text normalizer (extractMessageText, lines 58-94) -/

def partText : ContentPart → List String
  | .str s => [s]
  | .typed ty txt =>
    match ty with
    | some t =>
      match txt with
      | some s =>
        if t = "text" then [s]
        else if t = "step-start" then []
        else if t.startsWith "tool-" then ["[🔧 " ++ t.drop 5 ++ "]"]
        else []
      | none =>
        if t = "step-start" then []
        else if t.startsWith "tool-" then ["[🔧 " ++ t.drop 5 ++ "]"]
        else []
    | none => []

def extractMessageText : MessageContent → String
  | .str s => s
  | .nonObject => ""
  | .parts l => (String.intercalate "\n" (l.foldr (fun p acc => partText p ++ acc) [])).trim
  | .textField s => s
  | .other serialized => serialized.take 500

/-! ## Keyboard builders (lines 260-363) -/

def menuButton : InlineKeyboardButton := ⟨"🏠 Menu", some "menu"⟩

def createMainMenu : InlineKeyboardMarkup :=
  ⟨[[⟨"📋 Threads", some "threads:0"⟩, ⟨"💬 Messages", some "m:0"⟩],
    [⟨"📍 Current", some "current"⟩, ⟨"🔄 Refresh", some "refresh"⟩],
    [⟨"🐛 Debug", some "debug"⟩]]⟩

/-- The per-thread button of `createThreadsKeyboard`: appends the `" ✅"`
marker exactly when the entry's id equals `selectedThreadId`, truncates
long titles, and encodes the absolute cache index in the callback data. -/
def threadButton (selId : Option String) (idx : Int) (t : ThreadInfo) : InlineKeyboardButton :=
  let selected := if selId = some t.id then " ✅" else ""
  let title := if 25 < t.title.length then t.title.take 22 ++ "..." else t.title
  ⟨toString (idx + 1) ++ ". " ++ title ++ selected, some ("select:" ++ toString idx)⟩

def createThreadsKeyboard (st : BridgeState) (page : Int) : InlineKeyboardMarkup :=
  let pageSize : Int := 5
  let start := page * pageSize
  let endIdx := min (start + pageSize) (st.cachedThreads.length : Int)
  let threads := jsSlice st.cachedThreads start endIdx
  let buttons := jsMapIdx (fun i t => [threadButton st.selectedThreadId (start + (i : Int)) t]) threads
  let navRow :=
    (if 0 < page then
        [(⟨"⬅️ Prev", some ("threads:" ++ toString (page - 1))⟩ : InlineKeyboardButton)]
      else [])
    ++ (if endIdx < (st.cachedThreads.length : Int) then
        [(⟨"Next ➡️", some ("threads:" ++ toString (page + 1))⟩ : InlineKeyboardButton)]
      else [])
  let buttons := buttons ++ (if navRow = [] then [] else [navRow])
  ⟨buttons ++ [[menuButton]]⟩

def roleGlyph (r : String) : String :=
  if r = "user" then "👤" else if r = "assistant" then "🤖" else "⚙️"

/-- The preview cleanup applied to a message's extracted text: first 20
chars, newlines to spaces, keep only word chars, whitespace and CJK,
trim, first 18 chars, ellipsis. -/
def previewText (raw : String) : String :=
  ((String.mk (((raw.take 20).map (fun c => if c = '\n' then ' ' else c)).data.filter
      (fun c => c.isAlphanum || c = '_' || c.isWhitespace
        || (0x4e00 ≤ c.toNat && c.toNat ≤ 0x9fff)))).trim.take 18) ++ "..."

/-- The per-message button of `createMessagesKeyboard`: role glyph plus
cleaned preview, callback data `v:<ascending cache index>`. -/
def msgButton (m : Msg) (realIdx : Int) : InlineKeyboardButton :=
  ⟨roleGlyph m.role ++ " " ++ previewText (extractMessageText m.content),
   some ("v:" ++ toString realIdx)⟩

def createMessagesKeyboard (st : BridgeState) (page : Int) : InlineKeyboardMarkup :=
  let pageSize : Int := 5
  let total : Int := st.cachedMessages.length
  let start := max 0 (total - (page + 1) * pageSize)
  let endIdx := max 0 (total - page * pageSize)
  let messages := (jsSlice st.cachedMessages start endIdx).reverse
  let buttons := jsMapIdx (fun i m => [msgButton m (endIdx - 1 - (i : Int))]) messages
  let navRow :=
    (if 0 < page then
        [(⟨"⬅ " ++ toString page, some ("p:" ++ toString (page - 1))⟩ : InlineKeyboardButton)]
      else [])
    ++ (if 0 < start then
        [(⟨toString (page + 2) ++ " ➡", some ("p:" ++ toString (page + 1))⟩ : InlineKeyboardButton)]
      else [])
  let buttons := buttons ++ (if navRow = [] then [] else [navRow])
  ⟨buttons ++ [[menuButton]]⟩

/-! ## List lemmas about index-carrying maps over slice windows -/

lemma jsMapIdxAux_eq {α β : Type} [Inhabited α] (f : Nat → α → β) (l : List α) :
    ∀ k, jsMapIdxAux f k l =
      (List.range l.length).map (fun i => f (k + i) (l.getD i default)) := by
  induction l with
  | nil => intro k; simp [jsMapIdxAux]
  | cons a l ih =>
    intro k
    simp only [jsMapIdxAux, List.length_cons, List.range_succ_eq_map, List.map_cons, List.map_map]
    congr 1
    rw [ih (k + 1)]
    apply List.map_congr_left
    intro i _
    simp only [Function.comp_apply, List.getD_cons_succ]
    congr 1
    omega

lemma jsMapIdx_eq {α β : Type} [Inhabited α] (f : Nat → α → β) (l : List α) :
    jsMapIdx f l = (List.range l.length).map (fun i => f i (l.getD i default)) := by
  rw [jsMapIdx, jsMapIdxAux_eq]
  apply List.map_congr_left
  intro i _
  simp

lemma window_length {α : Type} (l : List α) (s e : Nat) (he : e ≤ l.length) :
    ((l.take e).drop s).length = e - s := by
  rw [List.length_drop, List.length_take, Nat.min_eq_left he]

lemma getD_window {α : Type} [Inhabited α] (l : List α) (s e i : Nat)
    (hi : i < e - s) :
    ((l.take e).drop s).getD i default = l.getD (s + i) default := by
  rw [List.getD_eq_getD_get?, List.getD_eq_getD_get?, List.get?_eq_getElem?,
    List.get?_eq_getElem?, List.getElem?_drop, List.getElem?_take, if_pos (by omega)]

lemma reversed_window_getD {α : Type} [Inhabited α] (l : List α) (s e i : Nat)
    (hs : s ≤ e) (he : e ≤ l.length) (hi : i < e - s) :
    ((l.take e).drop s).reverse.getD i default = l.getD (e - 1 - i) default := by
  have hlen := window_length l s e he
  rw [List.getD_eq_getD_get?, List.get?_eq_getElem?,
    List.getElem?_reverse (by rw [hlen]; omega), hlen,
    List.getElem?_drop, List.getElem?_take, if_pos (by omega)]
  have hidx : s + (e - s - 1 - i) = e - 1 - i := by omega
  rw [hidx, ← List.get?_eq_getElem?, ← List.getD_eq_getD_get?]

/-- C7: for a thread cache of size `N` and a valid page `p` (with
`0 ≤ p < ceil(N/5)`), the thread keyboard shows exactly the
`min 5 (N - 5p)` cached entries with indices `[5p, 5p+5)` in order, each
rendered by `threadButton` (which appends the selection marker exactly to
an entry whose id equals `selectedThreadId` and encodes the absolute index
in the callback data); the Prev control is present iff `p > 0` and the
Next control is present iff `5p + 5 < N`; a Menu row closes the keyboard. -/
theorem c7_thread_page_window (st : BridgeState) (p : Nat)
    (hp : p < (st.cachedThreads.length + 4) / 5) :
    (createThreadsKeyboard st (p : Int)).inline_keyboard =
      ((List.range (min 5 (st.cachedThreads.length - 5 * p))).map (fun i =>
        [threadButton st.selectedThreadId ((5 * p + i : Nat) : Int)
          (st.cachedThreads.getD (5 * p + i) default)]))
      ++ (if 0 < p ∨ 5 * p + 5 < st.cachedThreads.length then
            [(if 0 < p then
                [(⟨"⬅️ Prev", some ("threads:" ++ toString ((p : Int) - 1))⟩ :
                  InlineKeyboardButton)]
              else [])
              ++ (if 5 * p + 5 < st.cachedThreads.length then
                [(⟨"Next ➡️", some ("threads:" ++ toString ((p : Int) + 1))⟩ :
                  InlineKeyboardButton)]
              else [])]
          else [])
      ++ [[menuButton]] := by
  set N := st.cachedThreads.length with hN
  have h5p : 5 * p < N := by omega
  have hs : jsSliceIndex N ((p : Int) * 5) = 5 * p := by
    rw [jsSliceIndex, if_neg (by omega)]
    omega
  have he : jsSliceIndex N (min ((p : Int) * 5 + 5) (N : Int)) = min (5 * p + 5) N := by
    rw [jsSliceIndex, if_neg (by omega)]
    omega
  have hwin : jsMapIdx
      (fun i t => [threadButton st.selectedThreadId ((p : Int) * 5 + (i : Int)) t])
      ((st.cachedThreads.take (min (5 * p + 5) N)).drop (5 * p)) =
      (List.range (min 5 (N - 5 * p))).map (fun i =>
        [threadButton st.selectedThreadId ((5 * p + i : Nat) : Int)
          (st.cachedThreads.getD (5 * p + i) default)]) := by
    rw [jsMapIdx_eq, window_length _ _ _ (by omega)]
    have hcnt : min (5 * p + 5) N - 5 * p = min 5 (N - 5 * p) := by omega
    rw [hcnt]
    apply List.map_congr_left
    intro i hi
    rw [List.mem_range] at hi
    rw [getD_window _ _ (min (5 * p + 5) N) _ (by omega)]
    have hidx : ((p : Int) * 5 + (i : Int)) = ((5 * p + i : Nat) : Int) := by
      push_cast; ring
    rw [hidx]
  simp only [createThreadsKeyboard, jsSlice, ← hN, hs, he, hwin]
  have hnext : (min ((p : Int) * 5 + 5) (N : Int) < (N : Int)) ↔ 5 * p + 5 < N := by omega
  by_cases h1 : 0 < p <;> by_cases h2 : 5 * p + 5 < N <;>
    simp [h1, h2, hnext, Int.natCast_pos]

/-- C2: for a message cache of size `N` and any page `p ≥ 0`, the message
keyboard shows exactly the cached items with ascending indices in
`[max 0 (N - 5(p+1)), N - 5p)` (that window has `min 5 (N - 5p)` items),
reversed so the newest is first: display position `i` holds the item of
ascending index `N - 5p - 1 - i`, and its callback data (built by
`msgButton`) encodes exactly that ascending index; the Newer control is
present iff `p > 0`, the Older control is present iff the window start is
positive (iff `5p + 5 < N`); a Menu row closes the keyboard. -/
theorem c2_message_page_window (st : BridgeState) (p : Nat) :
    (createMessagesKeyboard st (p : Int)).inline_keyboard =
      ((List.range (min 5 (st.cachedMessages.length - 5 * p))).map (fun i =>
        [msgButton (st.cachedMessages.getD (st.cachedMessages.length - 5 * p - 1 - i) default)
          (((st.cachedMessages.length - 5 * p : Nat) : Int) - 1 - (i : Int))]))
      ++ (if 0 < p ∨ 5 * p + 5 < st.cachedMessages.length then
            [(if 0 < p then
                [(⟨"⬅ " ++ toString (p : Int), some ("p:" ++ toString ((p : Int) - 1))⟩ :
                  InlineKeyboardButton)]
              else [])
              ++ (if 5 * p + 5 < st.cachedMessages.length then
                [(⟨toString ((p : Int) + 2) ++ " ➡", some ("p:" ++ toString ((p : Int) + 1))⟩ :
                  InlineKeyboardButton)]
              else [])]
          else [])
      ++ [[menuButton]] := by
  set N := st.cachedMessages.length with hN
  have hstartInt : max 0 ((N : Int) - ((p : Int) + 1) * 5) = ((N - 5 * (p + 1) : Nat) : Int) := by
    omega
  have hendInt : max 0 ((N : Int) - (p : Int) * 5) = ((N - 5 * p : Nat) : Int) := by
    omega
  have hs : jsSliceIndex N ((N - 5 * (p + 1) : Nat) : Int) = N - 5 * (p + 1) := by
    rw [jsSliceIndex, if_neg (by omega)]
    omega
  have he : jsSliceIndex N ((N - 5 * p : Nat) : Int) = N - 5 * p := by
    rw [jsSliceIndex, if_neg (by omega)]
    omega
  have hwin : jsMapIdx
      (fun i m => [msgButton m (((N - 5 * p : Nat) : Int) - 1 - (i : Int))])
      ((st.cachedMessages.take (N - 5 * p)).drop (N - 5 * (p + 1))).reverse =
      (List.range (min 5 (N - 5 * p))).map (fun i =>
        [msgButton (st.cachedMessages.getD (N - 5 * p - 1 - i) default)
          (((N - 5 * p : Nat) : Int) - 1 - (i : Int))]) := by
    rw [jsMapIdx_eq, List.length_reverse, window_length _ _ _ (by omega)]
    have hcnt : N - 5 * p - (N - 5 * (p + 1)) = min 5 (N - 5 * p) := by omega
    rw [hcnt]
    apply List.map_congr_left
    intro i hi
    rw [List.mem_range] at hi
    rw [reversed_window_getD _ _ _ _ (by omega) (by omega) (by omega)]
  simp only [createMessagesKeyboard, jsSlice, ← hN, hstartInt, hendInt, hs, he, hwin]
  have holder : ((0 : Int) < ((N - 5 * (p + 1) : Nat) : Int)) ↔ 5 * p + 5 < N := by omega
  by_cases h1 : 0 < p <;> by_cases h2 : 5 * p + 5 < N <;>
    simp [h1, h2, holder, Int.natCast_pos]

def sevenThreads : List ThreadInfo :=
  [⟨"t1", "One"⟩, ⟨"t2", "Two"⟩, ⟨"t3", "Three"⟩, ⟨"t4", "Four"⟩,
   ⟨"t5", "Five"⟩, ⟨"t6", "Six"⟩, ⟨"t7", "Seven"⟩]

/-- C7 witness: seven threads, page 1 (the last page): exactly the two
entries with indices 5 and 6, the marker on the selected one, Prev but no
Next. -/
theorem c7_witness :
    (createThreadsKeyboard ⟨false, 0, some "t6", sevenThreads, [], 0⟩ ((1 : Nat) : Int)).inline_keyboard =
      [[⟨"6. Six ✅", some "select:5"⟩], [⟨"7. Seven", some "select:6"⟩],
       [⟨"⬅️ Prev", some "threads:0"⟩], [⟨"🏠 Menu", some "menu"⟩]] := by
  rw [c7_thread_page_window ⟨false, 0, some "t6", sevenThreads, [], 0⟩ 1 (by decide)]
  decide

/-! ## convertToTelegramHtml (lines 98-131)

Each of the source's sequential global regex replaces is embedded as one
pass over the character list; a pass scans left to right, replaces the
leftmost match exactly as the JS regex engine does (the patterns use lazy
or next-occurrence-bounded quantifiers, so a match is the leftmost
shortest one), and resumes after the replacement. -/

/-- Single-character global replace, e.g. `replace(/&/g, '&amp;')`. -/
def rep1 (c : Char) (r : List Char) : List Char → List Char
  | [] => []
  | d :: l => (if d = c then r else [d]) ++ rep1 c r l

def jsReplaceCharAll (s : String) (c : Char) (rep : String) : String :=
  ⟨rep1 c rep.data s.data⟩

/-- Split at the first occurrence of `pat` (nonempty): returns the part
before it and the part after it. -/
def splitFirst (pat : List Char) : List Char → Option (List Char × List Char)
  | [] => none
  | c :: rest =>
    if pat.isPrefixOf (c :: rest) then some ([], (c :: rest).drop pat.length)
    else match splitFirst pat rest with
      | some (a, b) => some (c :: a, b)
      | none => none

def isWordChar (c : Char) : Bool := c.isAlphanum || c = '_'

def trimChars (l : List Char) : List Char :=
  ((l.dropWhile (fun c => c.isWhitespace)).reverse.dropWhile (fun c => c.isWhitespace)).reverse

/-- Replacement for one fenced code block match of
`/```(\w*)\n?([\s\S]*?)```/g`. -/
def codeBlockRepl (lang code : List Char) : List Char :=
  if lang ≠ [] then
    "<pre><code class=\"language-".data ++ lang ++ "\">".data
      ++ trimChars code ++ "</code></pre>".data
  else
    "<pre><code>".data ++ trimChars code ++ "</code></pre>".data

def codeBlocksAux : Nat → List Char → List Char
  | 0, l => l
  | _ + 1, [] => []
  | fuel + 1, c :: rest =>
    if ['`', '`', '`'].isPrefixOf (c :: rest) then
      let afterTicks := (c :: rest).drop 3
      let lang := afterTicks.takeWhile isWordChar
      let afterLang := afterTicks.dropWhile isWordChar
      let afterNl := match afterLang with
        | '\n' :: r => r
        | r => r
      match splitFirst ['`', '`', '`'] afterNl with
      | some (code, after) => codeBlockRepl lang code ++ codeBlocksAux fuel after
      | none => c :: codeBlocksAux fuel rest
    else c :: codeBlocksAux fuel rest

def applyCodeBlocks (l : List Char) : List Char := codeBlocksAux l.length l

/-- Inline code `/`([^`]+)`/g`. -/
def inlineCodeAux : Nat → List Char → List Char
  | 0, l => l
  | _ + 1, [] => []
  | fuel + 1, c :: rest =>
    if c = '`' then
      match splitFirst ['`'] rest with
      | some (code, after) =>
        if code = [] then c :: inlineCodeAux fuel rest
        else "<code>".data ++ code ++ "</code>".data ++ inlineCodeAux fuel after
      | none => c :: inlineCodeAux fuel rest
    else c :: inlineCodeAux fuel rest

def applyInlineCode (l : List Char) : List Char := inlineCodeAux l.length l

/-- Leftmost-shortest nonempty run of non-newline characters followed by
`closing` (the JS lazy `(.+?)` before a closing delimiter). -/
def lazyDotMatch (closing : List Char) : List Char → Option (List Char × List Char)
  | [] => none
  | c :: rest =>
    if c = '\n' then none
    else if closing.isPrefixOf rest then some ([c], rest.drop closing.length)
    else match lazyDotMatch closing rest with
      | some (inner, after) => some (c :: inner, after)
      | none => none

/-- Bold `/\*\*(.+?)\*\*/g`. -/
def boldAux : Nat → List Char → List Char
  | 0, l => l
  | _ + 1, [] => []
  | fuel + 1, c :: rest =>
    if ['*', '*'].isPrefixOf (c :: rest) then
      match lazyDotMatch ['*', '*'] (rest.drop 1) with
      | some (inner, after) =>
        "<b>".data ++ inner ++ "</b>".data ++ boldAux fuel after
      | none => c :: boldAux fuel rest
    else c :: boldAux fuel rest

def applyBold (l : List Char) : List Char := boldAux l.length l

/-- Multi-character italic `/\*([^\s*][^*]*[^\s*])\*/g`: at a `*`, the
greedy `[^*]*` runs to the next `*`, so the span is delimited by the next
star and must have length at least 2 with non-whitespace first and last
characters. -/
def italicLongAux : Nat → List Char → List Char
  | 0, l => l
  | _ + 1, [] => []
  | fuel + 1, c :: rest =>
    if c = '*' then
      match splitFirst ['*'] rest with
      | some (inner, after) =>
        if 2 ≤ inner.length
            ∧ ¬(inner.headD ' ').isWhitespace
            ∧ ¬(inner.getLastD ' ').isWhitespace then
          "<i>".data ++ inner ++ "</i>".data ++ italicLongAux fuel after
        else c :: italicLongAux fuel rest
      | none => c :: italicLongAux fuel rest
    else c :: italicLongAux fuel rest

def applyItalicLong (l : List Char) : List Char := italicLongAux l.length l

/-- Single-character italic `/\*([^\s*])\*/g`. -/
def italicShortAux : Nat → List Char → List Char
  | 0, l => l
  | _ + 1, [] => []
  | fuel + 1, c :: rest =>
    if c = '*' then
      match rest with
      | x :: '*' :: after =>
        if ¬x.isWhitespace ∧ x ≠ '*' then
          "<i>".data ++ [x] ++ "</i>".data ++ italicShortAux fuel after
        else c :: italicShortAux fuel rest
      | _ => c :: italicShortAux fuel rest
    else c :: italicShortAux fuel rest

def applyItalicShort (l : List Char) : List Char := italicShortAux l.length l

/-- Links `/\[([^\]]+)\]\(([^)]+)\)/g`. -/
def linksAux : Nat → List Char → List Char
  | 0, l => l
  | _ + 1, [] => []
  | fuel + 1, c :: rest =>
    if c = '[' then
      match splitFirst [']'] rest with
      | some (txt, afterBracket) =>
        if txt ≠ [] then
          match afterBracket with
          | '(' :: urlPart =>
            (match splitFirst [')'] urlPart with
            | some (url, after) =>
              if url ≠ [] then
                "<a href=\"".data ++ url ++ "\">".data ++ txt ++ "</a>".data
                  ++ linksAux fuel after
              else c :: linksAux fuel rest
            | none => c :: linksAux fuel rest)
          | _ => c :: linksAux fuel rest
        else c :: linksAux fuel rest
      | none => c :: linksAux fuel rest
    else c :: linksAux fuel rest

def applyLinks (l : List Char) : List Char := linksAux l.length l

/-- Strikethrough `/~~(.+?)~~/g`. -/
def strikeAux : Nat → List Char → List Char
  | 0, l => l
  | _ + 1, [] => []
  | fuel + 1, c :: rest =>
    if ['~', '~'].isPrefixOf (c :: rest) then
      match lazyDotMatch ['~', '~'] (rest.drop 1) with
      | some (inner, after) =>
        "<s>".data ++ inner ++ "</s>".data ++ strikeAux fuel after
      | none => c :: strikeAux fuel rest
    else c :: strikeAux fuel rest

def applyStrike (l : List Char) : List Char := strikeAux l.length l

/-- The source's pipeline: escape `&`, `<`, `>` first, then rewrite code
blocks, inline code, bold, italic (two regexes), links, strikethrough, in
that order. -/
def convertToTelegramHtml (text : String) : String :=
  let r := text
  let r := jsReplaceCharAll r '&' "&amp;"
  let r := jsReplaceCharAll r '<' "&lt;"
  let r := jsReplaceCharAll r '>' "&gt;"
  let r := String.mk (applyCodeBlocks r.data)
  let r := String.mk (applyInlineCode r.data)
  let r := String.mk (applyBold r.data)
  let r := String.mk (applyItalicLong r.data)
  let r := String.mk (applyItalicShort r.data)
  let r := String.mk (applyLinks r.data)
  let r := String.mk (applyStrike r.data)
  r

/-- Character-level view of the three escape replaces chained together. -/
def htmlEscapeChar (c : Char) : List Char :=
  if c = '&' then "&amp;".data
  else if c = '<' then "&lt;".data
  else if c = '>' then "&gt;".data
  else [c]

lemma rep1_append (c : Char) (r l1 l2 : List Char) :
    rep1 c r (l1 ++ l2) = rep1 c r l1 ++ rep1 c r l2 := by
  induction l1 with
  | nil => rfl
  | cons d l ih => simp [rep1, ih]

lemma escape_chain_eq (l : List Char) :
    rep1 '>' "&gt;".data (rep1 '<' "&lt;".data (rep1 '&' "&amp;".data l)) =
      l.foldr (fun c acc => htmlEscapeChar c ++ acc) [] := by
  induction l with
  | nil => rfl
  | cons d l ih =>
    show rep1 '>' _ (rep1 '<' _ ((if d = '&' then "&amp;".data else [d]) ++ rep1 '&' _ l)) = _
    rw [rep1_append, rep1_append]
    rw [List.foldr_cons, ← ih]
    congr 1
    by_cases h1 : d = '&'
    · simp [h1, htmlEscapeChar, rep1]
    · by_cases h2 : d = '<'
      · simp [h1, h2, htmlEscapeChar, rep1]
      · by_cases h3 : d = '>'
        · simp [h1, h2, h3, htmlEscapeChar, rep1]
        · simp [h1, h2, h3, htmlEscapeChar, rep1]

/-- C8: `convertToTelegramHtml` escapes the reserved characters `&`, `<`,
`>` first — the whole function equals the markdown passes (code blocks,
inline code, bold, italic, links, strikethrough, in that fixed order)
applied to the character-wise escaped input — and on the literal input
`"<b>"` it produces `"&lt;b&gt;"`, never a bold tag. -/
theorem c8_escape_before_markdown :
    (∀ t : String,
      convertToTelegramHtml t =
        String.mk (applyStrike (applyLinks (applyItalicShort (applyItalicLong (applyBold
          (applyInlineCode (applyCodeBlocks
            (t.data.foldr (fun c acc => htmlEscapeChar c ++ acc) [])))))))))
    ∧ convertToTelegramHtml "<b>" = "&lt;b&gt;" := by
  constructor
  · intro t
    show String.mk (applyStrike (applyLinks (applyItalicShort (applyItalicLong (applyBold
      (applyInlineCode (applyCodeBlocks
        (rep1 '>' "&gt;".data (rep1 '<' "&lt;".data (rep1 '&' "&amp;".data t.data)))))))))) = _
    rw [escape_chain_eq]
  · rfl

/-! ## Interaction handlers (handleCallback lines 365-546, handleMessage
lines 548-588) -/

def menuText : String := "🤖 Alma Telegram Bridge\n\nSelect an option:"

def noThreadText : String := "❌ No thread selected.\n\nPlease select a thread first."

def noThreadKeyboard : InlineKeyboardMarkup := ⟨[[⟨"📋 Select Thread", some "threads:0"⟩]]⟩

def selectConfirmKeyboard : InlineKeyboardMarkup :=
  ⟨[[⟨"💬 View Messages", some "m:0"⟩], [menuButton]]⟩

def messageDetailKeyboard (pageIdx : Int) : InlineKeyboardMarkup :=
  ⟨[[⟨"⬅️ Back to Messages", some ("m:" ++ toString pageIdx)⟩], [menuButton]]⟩

def currentKeyboard : InlineKeyboardMarkup :=
  ⟨[[⟨"💬 View Messages", some "m:0"⟩], [⟨"📋 Change Thread", some "threads:0"⟩], [menuButton]]⟩

def debugKeyboard : InlineKeyboardMarkup :=
  ⟨[[⟨"🔄 Refresh Cache", some "refresh"⟩], [menuButton]]⟩

def threadsListText (total : Nat) : String :=
  "📋 Threads (" ++ toString total ++ " total)\n\nTap to select:"

def messagesListText (msgs : List Msg) (page : Int) (nowMod : Int) : String :=
  let total := msgs.length
  let userCount := msgs.countP (fun m => m.role == "user")
  let aiCount := msgs.countP (fun m => m.role == "assistant")
  let totalPages := (total + 4) / 5
  "💬 Messages (" ++ toString total ++ " total)\n👤 User: " ++ toString userCount
    ++ " | 🤖 AI: " ++ toString aiCount ++ "\n\n📄 Page " ++ toString (page + 1)
    ++ "/" ++ toString totalPages ++ " [" ++ toString nowMod ++ "]"

def currentFromActive (env : Env) : String :=
  match env.activeThread with
  | some active =>
    "📍 Using Active Thread:\n\n" ++ (if active.title = "" then "Untitled" else active.title)
      ++ "\n\nID: " ++ active.id.take 12 ++ "..."
  | none => "❌ No thread selected"

def debugText (cfg : Config) (st : BridgeState) : String :=
  let selText := match st.selectedThreadId with
    | some s => if s = "" then "None" else s.take 12 ++ "..."
    | none => "None"
  String.intercalate "\n"
    ["🐛 Debug Info", "",
     "Selected Thread: " ++ selText,
     "Cached Threads: " ++ toString st.cachedThreads.length,
     "Cached Messages: " ++ toString st.cachedMessages.length,
     "Message Page Index: " ++ toString st.messagePageIndex,
     "Bot Token: " ++ (if cfg.telegramBotToken = "" then "❌ Not set" else "✅ Set"),
     "Chat ID: " ++ (if cfg.telegramChatId = "" then "Not set" else cfg.telegramChatId)]

/-- `handleCallback`: parses `verb:argument` and dispatches.  `Env`
supplies the results of the external calls (`editMessage` success, the
host thread/message listings — `Except.error` models a thrown fetch);
returns the updated closure state and the trace of external calls. -/
def handleCallback (cfg : Config) (env : Env) (st : BridgeState) (q : CallbackQuery) :
    BridgeState × List Effect :=
  match q.message_id with
  | none => (st, [.answerCb q.id none])
  | some messageId =>
    if messageId = 0 then (st, [.answerCb q.id none])
    else
      let data := q.data.getD ""
      let parts := jsSplit data ':'
      let action := parts.headD ""
      let param := parts.get? 1
      if action = "menu" then
        (st, [.editMsg messageId menuText (some createMainMenu) false, .answerCb q.id none])
      else if action = "threads" then
        let page := (jsParseInt param).getD 0
        match env.listThreadsResult with
        | .ok threads =>
          let st1 := { st with cachedThreads :=
            (threads.take 50).map (fun t => ⟨t.id, if t.title = "" then "Untitled" else t.title⟩) }
          (st1, [.editMsg messageId (threadsListText st1.cachedThreads.length)
                   (some (createThreadsKeyboard st1 page)) false,
                 .answerCb q.id none])
        | .error _ => (st, [.answerCb q.id (some "Error loading threads")])
      else if action = "select" then
        match jsParseInt param with
        | some idx =>
          if 0 ≤ idx ∧ idx < (st.cachedThreads.length : Int) then
            let thread := st.cachedThreads.getD idx.toNat default
            let st1 := { st with selectedThreadId := some thread.id }
            (st1, [.storageSet "selectedThreadId" thread.id,
                   .editMsg messageId
                     ("✅ Thread selected:\n\n" ++ thread.title ++ "\n\nID: "
                       ++ thread.id.take 12 ++ "...")
                     (some selectConfirmKeyboard) false,
                   .answerCb q.id (some "Selected!")])
          else (st, [])
        | none => (st, [])
      else if action = "messages" ∨ action = "m" ∨ action = "p" then
        let page := (jsParseInt param).getD 0
        let st1 := { st with messagePageIndex := page }
        let threadId : Option String :=
          match jsTruthyStr st1.selectedThreadId with
          | some s => some s
          | none => env.activeThread.map (fun t => t.id)
        if threadId.getD "" = "" then
          (st1, [.editMsg messageId noThreadText (some noThreadKeyboard) false,
                 .answerCb q.id none])
        else
          match (if st1.cachedMessages.length = 0 then env.getMessagesResult
                 else .ok st1.cachedMessages) with
          | .ok msgs =>
            let st2 := { st1 with cachedMessages := msgs }
            let text := messagesListText st2.cachedMessages page env.nowMod
            let keyboard := createMessagesKeyboard st2 page
            (st2, [.editMsg messageId text (some keyboard) false]
                  ++ (if env.editOk then [] else [.sendMsg text (some keyboard) false])
                  ++ [.answerCb q.id none])
          | .error e =>
            (st1, [.sendMsg ("❌ Error: " ++ e.take 200) none false,
                   .answerCb q.id (some "Error")])
      else if action = "msg" ∨ action = "v" then
        match jsParseInt param with
        | some idx =>
          if 0 ≤ idx ∧ idx < (st.cachedMessages.length : Int) then
            let m := st.cachedMessages.getD idx.toNat default
            let role := if m.role = "user" then "👤 User"
              else if m.role = "assistant" then "🤖 Assistant" else "⚙️ System"
            let content := extractMessageText m.content
            let time := env.localeString m.createdAt
            let rawText := if 3500 < content.length then content.take 3500 ++ "\n\n... (truncated)"
              else content
            let text := role ++ "\n📅 " ++ time ++ "\n\n" ++ convertToTelegramHtml rawText
            (st, [.editMsg messageId text (some (messageDetailKeyboard st.messagePageIndex)) true,
                  .answerCb q.id none])
          else (st, [])
        | none => (st, [])
      else if action = "current" then
        let text :=
          match jsTruthyStr st.selectedThreadId with
          | some sel =>
            let cached := st.cachedThreads.find? (fun t => t.id == sel)
            let title := match cached with
              | some c => if c.title = "" then "Unknown" else c.title
              | none => "Unknown"
            "📍 Current Thread:\n\n" ++ title ++ "\n\nID: " ++ sel.take 12 ++ "..."
          | none => currentFromActive env
        (st, [.editMsg messageId text (some currentKeyboard) false, .answerCb q.id none])
      else if action = "refresh" then
        let st1 := { st with cachedThreads := [], cachedMessages := [], selectedThreadId := none }
        (st1, [.editMsg messageId "🔄 Cache cleared!\n\nSelect an option:" (some createMainMenu) false,
               .answerCb q.id (some "Refreshed!")])
      else if action = "debug" then
        (st, [.editMsg messageId (debugText cfg st) (some debugKeyboard) false,
              .answerCb q.id none])
      else
        (st, [.answerCb q.id none])

def clipNotificationText (text : String) : String :=
  "📋 Telegram 消息已复制到剪贴板！\n\n\"" ++ text.take 50
    ++ (if 50 < text.length then "..." else "") ++ "\"\n\n请在 Alma 中按 Ctrl+V 粘贴"

/-- `handleMessage`: inbound plain messages.  Returns early with no effect
when the text is missing/empty or the chat id does not match the
configured chat; commands send menus; other text goes to the clipboard. -/
def handleMessage (cfg : Config) (env : Env) (st : BridgeState) (m : InboundMessage) :
    BridgeState × List Effect :=
  match m.text with
  | none => (st, [])
  | some text =>
    if text = "" then (st, [])
    else
      let chatId := toString m.chatId
      if chatId ≠ cfg.telegramChatId then (st, [])
      else if text.startsWith "/" then
        let command := ((jsSplit text ' ').headD "").toLower
        if command = "/start" ∨ command = "/menu" then
          (st, [.sendMsg menuText (some createMainMenu) false])
        else if command = "/ping" then
          let latency := env.nowMs - m.date * 1000
          (st, [.sendMsg ("🏓 Pong! Latency: " ++ toString latency ++ "ms")
                  (some ⟨[[menuButton]]⟩) false])
        else
          (st, [.sendMsg "Use the buttons below to navigate:" (some createMainMenu) false])
      else
        (st, [.clipboardWrite text,
              .notify (clipNotificationText text) "info",
              .sendMsg "✅ 消息已复制到 Alma 剪贴板，请在 Alma 中粘贴发送" (some ⟨[[menuButton]]⟩) false])

/-- The configuration check at the top of `activate` (lines 145-147). -/
def activateConfigWarning (cfg : Config) : List Effect :=
  if cfg.telegramBotToken = "" ∨ cfg.telegramChatId = "" then
    [.notify "Telegram Bridge: Please configure Bot Token and Chat ID" "warning"]
  else []

/-- `startPolling` (lines 598-621): a no-op when already polling or when
the bot token is missing; otherwise flips the guard, clears the webhook,
registers commands, restores the persisted thread id (best effort) and
enters the poll loop. -/
def startPolling (cfg : Config) (env : Env) (st : BridgeState) : BridgeState × List Effect :=
  if st.isPolling ∨ cfg.telegramBotToken = "" then (st, [])
  else
    let st1 := { st with isPolling := true }
    let st2 := match env.storedThreadId with
      | some tid => if tid = "" then st1 else { st1 with selectedThreadId := some tid }
      | none => st1
    (st2, [.apiCall "deleteWebhook", .apiCall "setMyCommands", .pollLoopEntered])

/-! ## Concrete fixtures used by witnesses and counterexamples -/

def cfg0 : Config := ⟨"token123", "42", "", 2000⟩

def env0 : Env :=
  ⟨true, .ok [], .ok [], none, none, 0, 0, fun s => s⟩

def envEditFail : Env :=
  ⟨false, .ok [], .ok [], none, none, 7, 0, fun s => s⟩

def envMsgsFail : Env :=
  ⟨true, .ok [], .error "boom", none, none, 0, 0, fun s => s⟩

def envThreadsFail : Env :=
  ⟨true, .error "down", .ok [], none, none, 0, 0, fun s => s⟩

def sampleThreads : List ThreadInfo := [⟨"t1", "First"⟩, ⟨"t2", "Second"⟩]

def sampleMsgs : List Msg :=
  [⟨"m1", "user", .str "hi", "2024-01-01"⟩, ⟨"m2", "assistant", .str "hello", "2024-01-02"⟩]

def isSendEffect : Effect → Bool
  | .sendMsg _ _ _ => true
  | _ => false

/-! ## C3: refresh and the message page cursor -/

/-- C3 counterexample: from a state with `messagePageIndex = 2`, the
`refresh` action clears both caches (and the selected thread) but leaves
`messagePageIndex` at 2, so it is not reset to 0 in the same transition. -/
theorem c3_refresh_page_not_reset :
    ((handleCallback cfg0 env0 ⟨false, 0, some "t1", sampleThreads, sampleMsgs, 2⟩
        ⟨"cb", some "refresh", some 1⟩).1.cachedMessages = []
     ∧ (handleCallback cfg0 env0 ⟨false, 0, some "t1", sampleThreads, sampleMsgs, 2⟩
        ⟨"cb", some "refresh", some 1⟩).1.cachedThreads = []
     ∧ ¬ (handleCallback cfg0 env0 ⟨false, 0, some "t1", sampleThreads, sampleMsgs, 2⟩
        ⟨"cb", some "refresh", some 1⟩).1.messagePageIndex = 0) := by
  decide

/-- C3 (amended): the `refresh` action clears both caches and the selected
thread in one transition, but does not touch `messagePageIndex`: the
cursor keeps its previous value (it is only reassigned by the
`messages`/`m`/`p` actions). -/
theorem c3_refresh_clears_caches_keeps_page (cfg : Config) (env : Env) (st : BridgeState)
    (q : CallbackQuery) (mid : Int)
    (hmid : q.message_id = some mid) (hm0 : mid ≠ 0) (hd : q.data = some "refresh") :
    handleCallback cfg env st q =
      (⟨st.isPolling, st.lastUpdateId, none, [], [], st.messagePageIndex⟩,
       [.editMsg mid "🔄 Cache cleared!\n\nSelect an option:" (some createMainMenu) false,
        .answerCb q.id (some "Refreshed!")]) := by
  simp only [handleCallback, hmid, hd]
  rw [if_neg hm0]
  rfl

/-- C3 witness: the amended theorem applied at a concrete refresh action. -/
theorem c3_witness :
    handleCallback cfg0 env0 ⟨false, 9, some "t2", sampleThreads, sampleMsgs, 5⟩
        ⟨"cbW", some "refresh", some 3⟩ =
      (⟨false, 9, none, [], [], 5⟩,
       [.editMsg 3 "🔄 Cache cleared!\n\nSelect an option:" (some createMainMenu) false,
        .answerCb "cbW" (some "Refreshed!")]) :=
  c3_refresh_clears_caches_keeps_page cfg0 env0
    ⟨false, 9, some "t2", sampleThreads, sampleMsgs, 5⟩
    ⟨"cbW", some "refresh", some 3⟩ 3 rfl (by decide) rfl

/-! ## C4: edit-failure fallback -/

/-- C4 counterexample: the `menu` handler renders via edit, yet when the
edit fails (`editOk = false`) it performs no `sendMessage` fallback at
all — the fallback is not part of the contract for all callers of edit. -/
theorem c4_menu_edit_no_fallback :
    ((handleCallback cfg0 envEditFail ⟨false, 0, none, [], [], 0⟩
        ⟨"cb", some "menu", some 1⟩).2 =
      [.editMsg 1 menuText (some createMainMenu) false, .answerCb "cb" none]
     ∧ ((handleCallback cfg0 envEditFail ⟨false, 0, none, [], [], 0⟩
        ⟨"cb", some "menu", some 1⟩).2.countP isSendEffect = 0)) := by
  decide

/-- C4 (amended): only the message-list handler (`messages`/`m`/`p`) has
the fallback: when its edit reports failure it invokes `sendMessage`
exactly once, with the same text and the same keyboard; the other
handlers that render via edit ignore the edit result. -/
theorem c4_messages_edit_fallback_once (cfg : Config) (env : Env) (st : BridgeState)
    (q : CallbackQuery) (mid : Int) (d ps tid : String) (pg : Int)
    (hmid : q.message_id = some mid) (hm0 : mid ≠ 0)
    (hd : q.data = some d) (hsplit : jsSplit d ':' = ["m", ps])
    (hparse : jsParseIntStr ps = some pg)
    (hsel : st.selectedThreadId = some tid) (htid : tid ≠ "")
    (hcache : st.cachedMessages ≠ [])
    (hedit : env.editOk = false) :
    handleCallback cfg env st q =
      ({ st with messagePageIndex := pg },
       [.editMsg mid (messagesListText st.cachedMessages pg env.nowMod)
          (some (createMessagesKeyboard { st with messagePageIndex := pg } pg)) false,
        .sendMsg (messagesListText st.cachedMessages pg env.nowMod)
          (some (createMessagesKeyboard { st with messagePageIndex := pg } pg)) false,
        .answerCb q.id none]) := by
  simp only [handleCallback, hmid, hd]
  rw [if_neg hm0]
  simp only [Option.getD_some, hsplit, List.headD_cons, List.get?_cons_succ,
    List.get?_cons_zero, jsParseInt, hparse, hsel, jsTruthyStr, htid,
    ite_false, ite_true, List.length_eq_zero, hcache, hedit]
  rfl

/-- C4 witness: the amended fallback theorem at a concrete failing edit. -/
theorem c4_witness :
    handleCallback cfg0 envEditFail ⟨false, 0, some "t1", sampleThreads, sampleMsgs, 0⟩
        ⟨"cbX", some "m:1", some 2⟩ =
      ({ (⟨false, 0, some "t1", sampleThreads, sampleMsgs, 0⟩ : BridgeState) with
          messagePageIndex := 1 },
       [.editMsg 2 (messagesListText sampleMsgs 1 7)
          (some (createMessagesKeyboard ⟨false, 0, some "t1", sampleThreads, sampleMsgs, 1⟩ 1)) false,
        .sendMsg (messagesListText sampleMsgs 1 7)
          (some (createMessagesKeyboard ⟨false, 0, some "t1", sampleThreads, sampleMsgs, 1⟩ 1)) false,
        .answerCb "cbX" none]) :=
  c4_messages_edit_fallback_once cfg0 envEditFail
    ⟨false, 0, some "t1", sampleThreads, sampleMsgs, 0⟩
    ⟨"cbX", some "m:1", some 2⟩ 2 "m:1" "1" "t1" 1
    rfl (by decide) rfl (by decide) (by decide) rfl (by decide) (by decide) rfl

/-! ## C5: fetch-failure isolation -/

/-- C5 counterexample: a failing message fetch is caught and surfaced as a
terse error, but the session state is not left unchanged — the message
page cursor has already been set to the requested page (2) before the
fetch, so it differs from its prior value (0). -/
theorem c5_page_mutated_on_fetch_failure :
    ((handleCallback cfg0 envMsgsFail ⟨false, 0, some "t1", sampleThreads, [], 0⟩
        ⟨"cb", some "m:2", some 1⟩).2 =
      [.sendMsg "❌ Error: boom" none false, .answerCb "cb" (some "Error")]
     ∧ ¬ (handleCallback cfg0 envMsgsFail ⟨false, 0, some "t1", sampleThreads, [], 0⟩
        ⟨"cb", some "m:2", some 1⟩).1.messagePageIndex = 0) := by
  decide

/-- C5 (amended): a failing thread-listing fetch is caught and only
acknowledged with a terse error, all state unchanged; a failing
message-listing fetch is caught, surfaced as a terse error message plus an
error acknowledgement, and leaves `selectedThreadId` and both caches
unchanged — but `messagePageIndex` has already been set to the requested
page before the fetch.  Neither failure escapes the dispatch. -/
theorem c5_fetch_failure_isolation (cfg : Config) (env : Env) (st : BridgeState)
    (q : CallbackQuery) (mid : Int) (d : String)
    (hmid : q.message_id = some mid) (hm0 : mid ≠ 0) (hd : q.data = some d) :
    (∀ rest msg, jsSplit d ':' = "threads" :: rest →
        env.listThreadsResult = .error msg →
        handleCallback cfg env st q = (st, [.answerCb q.id (some "Error loading threads")]))
    ∧ (∀ ps tid pg msg, jsSplit d ':' = ["m", ps] →
        jsParseIntStr ps = some pg →
        st.selectedThreadId = some tid → tid ≠ "" →
        st.cachedMessages = [] →
        env.getMessagesResult = .error msg →
        handleCallback cfg env st q =
          ({ st with messagePageIndex := pg },
           [.sendMsg ("❌ Error: " ++ msg.take 200) none false,
            .answerCb q.id (some "Error")])) := by
  constructor
  · intro rest msg hsplit herr
    simp only [handleCallback, hmid, hd]
    rw [if_neg hm0]
    simp only [Option.getD_some, hsplit, List.headD_cons, herr]
    rfl
  · intro ps tid pg msg hsplit hparse hsel htid hc herr
    simp only [handleCallback, hmid, hd]
    rw [if_neg hm0]
    simp only [Option.getD_some, hsplit, List.headD_cons, List.get?_cons_succ,
      List.get?_cons_zero, jsParseInt, hparse, hsel, jsTruthyStr, htid,
      ite_false, ite_true, hc, List.length_nil, herr]
    rfl

/-- C5 witness: both parts of the fetch-failure theorem at concrete
failing fetches. -/
theorem c5_witness :
    (handleCallback cfg0 envThreadsFail ⟨false, 0, some "t1", sampleThreads, sampleMsgs, 3⟩
        ⟨"cbA", some "threads:0", some 1⟩ =
      (⟨false, 0, some "t1", sampleThreads, sampleMsgs, 3⟩,
       [.answerCb "cbA" (some "Error loading threads")]))
    ∧ (handleCallback cfg0 envMsgsFail ⟨false, 0, some "t1", sampleThreads, [], 0⟩
        ⟨"cbB", some "m:1", some 1⟩ =
      ({ (⟨false, 0, some "t1", sampleThreads, [], 0⟩ : BridgeState) with messagePageIndex := 1 },
       [.sendMsg "❌ Error: boom" none false, .answerCb "cbB" (some "Error")])) :=
  ⟨(c5_fetch_failure_isolation cfg0 envThreadsFail
      ⟨false, 0, some "t1", sampleThreads, sampleMsgs, 3⟩
      ⟨"cbA", some "threads:0", some 1⟩ 1 "threads:0" rfl (by decide) rfl).1
      ["0"] "down" (by decide) rfl,
   (c5_fetch_failure_isolation cfg0 envMsgsFail
      ⟨false, 0, some "t1", sampleThreads, [], 0⟩
      ⟨"cbB", some "m:1", some 1⟩ 1 "m:1" rfl (by decide) rfl).2
      "1" "t1" 1 "boom" (by decide) (by decide) rfl (by decide) rfl rfl⟩

/-! ## C6: configuration warning and polling start -/

/-- C6 counterexample: with the bot token set but the chat id missing, the
startup warning fires, yet `startPolling` still flips `isPolling` and
enters the poll loop — polling does start. -/
theorem c6_chatid_missing_still_polls :
    (activateConfigWarning ⟨"token123", "", "", 2000⟩ =
      [.notify "Telegram Bridge: Please configure Bot Token and Chat ID" "warning"]
     ∧ (startPolling ⟨"token123", "", "", 2000⟩ env0 ⟨false, 0, none, [], [], 0⟩).1.isPolling = true
     ∧ (startPolling ⟨"token123", "", "", 2000⟩ env0 ⟨false, 0, none, [], [], 0⟩).2 =
        [.apiCall "deleteWebhook", .apiCall "setMyCommands", .pollLoopEntered]) := by
  decide

/-- C6 (amended): the non-fatal warning is surfaced at activation iff the
bot token or the chat id is missing, but (when not already polling)
`startPolling` is a no-op iff the bot token alone is missing — a missing
chat id does not prevent polling from starting. -/
theorem c6_warning_iff_and_polling_gated_on_token (cfg : Config) (env : Env) (st : BridgeState)
    (hpoll : st.isPolling = false) :
    (activateConfigWarning cfg ≠ [] ↔ (cfg.telegramBotToken = "" ∨ cfg.telegramChatId = ""))
    ∧ (startPolling cfg env st = (st, []) ↔ cfg.telegramBotToken = "") := by
  constructor
  · by_cases h : cfg.telegramBotToken = "" ∨ cfg.telegramChatId = "" <;>
      simp [activateConfigWarning, h]
  · by_cases htok : cfg.telegramBotToken = ""
    · simp [startPolling, hpoll, htok]
    · have hne : startPolling cfg env st ≠ (st, []) := by
        rcases henv : env.storedThreadId with _ | tid
        · simp [startPolling, hpoll, htok, henv]
        · by_cases ht : tid = "" <;> simp [startPolling, hpoll, htok, henv, ht]
      simp [hne, htok]

/-- C6 witness: the amended theorem at a concrete configuration with both
values present (no warning, polling starts) — instantiated, then both
iff directions are checked at the evaluated definitions. -/
theorem c6_witness :
    ((activateConfigWarning cfg0 ≠ [] ↔
        (cfg0.telegramBotToken = "" ∨ cfg0.telegramChatId = ""))
     ∧ (startPolling cfg0 env0 ⟨false, 0, none, [], [], 0⟩ =
          (⟨false, 0, none, [], [], 0⟩, []) ↔ cfg0.telegramBotToken = "")) :=
  c6_warning_iff_and_polling_gated_on_token cfg0 env0 ⟨false, 0, none, [], [], 0⟩ rfl

/-! ## C9: messages from non-configured chats -/

/-- C9: an inbound text message whose chat id (stringified) differs from
the configured chat id is dropped: no outbound send, no notification, no
clipboard write, no state change. -/
theorem c9_foreign_chat_ignored (cfg : Config) (env : Env) (st : BridgeState)
    (m : InboundMessage) (t : String)
    (htext : m.text = some t)
    (hchat : toString m.chatId ≠ cfg.telegramChatId) :
    handleMessage cfg env st m = (st, []) := by
  simp only [handleMessage, htext]
  by_cases ht : t = ""
  · simp [ht]
  · simp [ht, hchat]

/-- C9 witness: a message from chat 7 while chat "42" is configured. -/
theorem c9_witness :
    handleMessage cfg0 env0 ⟨false, 0, some "t1", sampleThreads, sampleMsgs, 1⟩
        ⟨10, 7, 0, some "hello"⟩ =
      (⟨false, 0, some "t1", sampleThreads, sampleMsgs, 1⟩, []) :=
  c9_foreign_chat_ignored cfg0 env0 ⟨false, 0, some "t1", sampleThreads, sampleMsgs, 1⟩
    ⟨10, 7, 0, some "hello"⟩ "hello" rfl (by decide)

/-! ## C10: out-of-bounds select / view indices -/

/-- C10: a `select` action whose argument does not parse to an index
within the thread cache bounds, and a `msg`/`v` action whose argument is
not within the message cache bounds, do nothing at all — no state change,
no edit or send, and no callback acknowledgement — whereas an
unrecognized verb is acknowledged (and nothing else). -/
theorem c10_out_of_bounds_silent (cfg : Config) (env : Env) (st : BridgeState)
    (q : CallbackQuery) (mid : Int) (d : String)
    (hmid : q.message_id = some mid) (hm0 : mid ≠ 0) (hd : q.data = some d) :
    (∀ ps, jsSplit d ':' = "select" :: ps →
      (∀ i, jsParseInt (ps.get? 0) = some i → i < 0 ∨ (st.cachedThreads.length : Int) ≤ i) →
      handleCallback cfg env st q = (st, []))
    ∧ (∀ a ps, jsSplit d ':' = a :: ps → (a = "msg" ∨ a = "v") →
      (∀ i, jsParseInt (ps.get? 0) = some i → i < 0 ∨ (st.cachedMessages.length : Int) ≤ i) →
      handleCallback cfg env st q = (st, []))
    ∧ (∀ a ps, jsSplit d ':' = a :: ps →
      a ∉ ["menu", "threads", "select", "messages", "m", "p", "msg", "v", "current",
           "refresh", "debug"] →
      handleCallback cfg env st q = (st, [.answerCb q.id none])) := by
  refine ⟨?_, ?_, ?_⟩
  · intro ps hsplit hout
    simp only [handleCallback, hmid, hd]
    rw [if_neg hm0]
    simp only [Option.getD_some, hsplit, List.headD_cons, List.get?_cons_succ]
    rcases hjs : jsParseInt (ps.get? 0) with _ | i
    · simp only [hjs]
      rfl
    · have hi := hout i hjs
      have hcond : ¬(0 ≤ i ∧ i < (st.cachedThreads.length : Int)) := by omega
      simp only [hjs, hcond, ite_false]
      rfl
  · intro a ps hsplit hav hout
    rcases hav with rfl | rfl <;>
    · simp only [handleCallback, hmid, hd]
      rw [if_neg hm0]
      simp only [Option.getD_some, hsplit, List.headD_cons, List.get?_cons_succ]
      rcases hjs : jsParseInt (ps.get? 0) with _ | i
      · simp only [hjs]
        rfl
      · have hi := hout i hjs
        have hcond : ¬(0 ≤ i ∧ i < (st.cachedMessages.length : Int)) := by omega
        simp only [hjs, hcond, ite_false]
        rfl
  · intro a ps hsplit hna
    simp only [List.mem_cons, List.mem_singleton, not_or] at hna
    obtain ⟨h1, h2, h3, h4, h5, h6, h7, h8, h9, h10, h11⟩ := hna
    simp only [handleCallback, hmid, hd, Option.getD_some, hsplit, List.headD_cons,
      h1, h2, h3, h4, h5, h6, h7, h8, h9, h10, h11, ite_false, or_self, or_false, false_or]
    rw [if_neg hm0]

/-- C10 witness: an out-of-bounds `select:99`, an unparsable `v:abc`, and
an unknown verb `bogus` at a concrete two-thread, two-message state. -/
theorem c10_witness :
    (handleCallback cfg0 env0 ⟨false, 0, some "t1", sampleThreads, sampleMsgs, 0⟩
        ⟨"c1", some "select:99", some 1⟩ =
      (⟨false, 0, some "t1", sampleThreads, sampleMsgs, 0⟩, []))
    ∧ (handleCallback cfg0 env0 ⟨false, 0, some "t1", sampleThreads, sampleMsgs, 0⟩
        ⟨"c2", some "v:abc", some 1⟩ =
      (⟨false, 0, some "t1", sampleThreads, sampleMsgs, 0⟩, []))
    ∧ (handleCallback cfg0 env0 ⟨false, 0, some "t1", sampleThreads, sampleMsgs, 0⟩
        ⟨"c3", some "bogus", some 1⟩ =
      (⟨false, 0, some "t1", sampleThreads, sampleMsgs, 0⟩, [.answerCb "c3" none])) :=
  ⟨(c10_out_of_bounds_silent cfg0 env0 ⟨false, 0, some "t1", sampleThreads, sampleMsgs, 0⟩
      ⟨"c1", some "select:99", some 1⟩ 1 "select:99" rfl (by decide) rfl).1
      ["99"] (by decide)
      (fun i hi => by
        have h : jsParseInt (List.get? ["99"] 0) = some 99 := by decide
        rw [h] at hi
        obtain rfl := Option.some.inj hi
        right
        decide),
   (c10_out_of_bounds_silent cfg0 env0 ⟨false, 0, some "t1", sampleThreads, sampleMsgs, 0⟩
      ⟨"c2", some "v:abc", some 1⟩ 1 "v:abc" rfl (by decide) rfl).2.1
      "v" ["abc"] (by decide) (Or.inr rfl)
      (fun i hi => by
        have h : jsParseInt (List.get? ["abc"] 0) = none := by decide
        rw [h] at hi
        exact Option.noConfusion hi),
   (c10_out_of_bounds_silent cfg0 env0 ⟨false, 0, some "t1", sampleThreads, sampleMsgs, 0⟩
      ⟨"c3", some "bogus", some 1⟩ 1 "bogus" rfl (by decide) rfl).2.2
      "bogus" [] (by decide) (by decide)⟩

end AlmaBridge
